import Mathlib

/-!
Verification development for the gitlab-safe-push tool (src/main.rs).

The embedding below is a shallow translation of the decision core of the
program: the Stage Order Deriver (get_stage_order), the Blocking Evaluator
(check_pipeline_blocking and its per-job stage rule), the elapsed-time
computation (seconds_since_start), the Active Pipeline Scanner
(check_blocking_pipelines), the Poll Loop (wait_for_pipeline), the
orchestrator error-handling skeleton (safe_push), and the configuration
resolution (GitLabSafePush.new).

Modelling conventions:
- Machine integer u64 values are Nat; the single place the code performs a
  signed-to-unsigned cast (the `as u64` in seconds_since_start) is modelled
  explicitly as reduction modulo 2^64 (u64_of_int).
- Timestamp parsing (chrono parse_from_rfc3339, an external library) is a
  parameter of type String → Option Int mapping a timestamp string to an
  instant in seconds; Utc::now() is a parameter now : Int.
- Network fetches are parameters: the scanner takes the fetched pipeline
  list and a jobs oracle; the fallible variants take Except results, and
  the unbounded poll loop consumes the list of scanner results of its
  successive iterations (an empty list models running past the modelled
  horizon).
-/

/-- Pipeline record as deserialized from the API (struct Pipeline). -/
structure Pipeline where
  id : Nat
  status : String
  ref : String
  created_at : String
deriving Repr, DecidableEq

/-- Job record as deserialized from the API (struct Job). -/
structure Job where
  id : Nat
  name : String
  stage : String
  status : String
  started_at : Option String
  created_at : String
deriving Repr, DecidableEq

/-- Reasons a pipeline blocks a push (enum BlockingReason). -/
inductive BlockingReason where
  | SimpleMode : BlockingReason
  | BlockingStageRunning : String → BlockingReason
  | BlockingJobRunning : String → BlockingReason
  | PreBlockingStage : String → Nat → BlockingReason
deriving Repr, DecidableEq

/-- Resolved runtime state of the tool (struct GitLabSafePush), minus the
HTTP client handle. -/
structure GitLabSafePush where
  gitlab_url : String
  token : String
  blocking_stage : Option String
  blocking_jobs : List String
  pre_block_duration : Nat
  post_block_duration : Nat
  check_interval : Nat
  simple_mode : Bool
deriving Repr, DecidableEq

/-- Config-file record (struct Config). -/
structure Config where
  token : Option String := none
  gitlab_url : Option String := none
  blocking_stage : Option String := none
  blocking_jobs : Option String := none
  pre_block_duration : Option Nat := none
  post_block_duration : Option Nat := none
  check_interval : Option Nat := none
  simple_mode : Option Bool := none
deriving Repr, DecidableEq

/-- Removal of trailing slash characters from the GitLab URL, the Rust
trim_end_matches call of GitLabSafePush::new, written by structural
recursion on the reversed character list so that it evaluates. -/
def trim_end_slashes (s : String) : String :=
  String.mk ((s.data.reverse.dropWhile (fun c => c == '/')).reverse)

/-- Rust cast of a signed 64-bit second count to u64: reduction mod 2^64. -/
def u64_of_int (x : Int) : Nat :=
  (x % (2 ^ 64 : Int)).toNat

/-- Comma-splitting, trimming and empty-filtering of the blocking-jobs
string, as done inline in GitLabSafePush::new on the resolved option. -/
def parse_blocking_jobs (s : Option String) : List String :=
  (s.map fun jobs =>
    ((jobs.splitOn ",").map String.trim).filter (fun job => !job.isEmpty)).getD []

/-- Configuration resolution of GitLabSafePush::new. CLI values come first,
then the config file, then the environment (modelled as the env_token and
env_url parameters); check_interval treats the CLI value 30 as unset; any
blocking configuration forces advanced mode. -/
def GitLabSafePush.new (gitlab_url token blocking_stage blocking_jobs : Option String)
    (pre_block_duration post_block_duration check_interval : Nat)
    (simple_mode : Bool) (config : Config) (env_token env_url : Option String) :
    Except String GitLabSafePush :=
  match token <|> config.token <|> env_token with
  | none => Except.error "GitLab token not found! Set GITLAB_TOKEN environment variable or use --token"
  | some token =>
    match gitlab_url <|> config.gitlab_url <|> env_url with
    | none => Except.error "GitLab URL not found! Set GITLAB_URL environment variable or use --gitlab-url"
    | some gitlab_url =>
      let blocking_stage := blocking_stage <|> config.blocking_stage
      let blocking_jobs_str := blocking_jobs <|> config.blocking_jobs
      let check_interval :=
        if check_interval != 30 then check_interval
        else config.check_interval.getD 30
      let blocking_jobs_vec := parse_blocking_jobs blocking_jobs_str
      let has_blocking_config := blocking_stage.isSome || !blocking_jobs_vec.isEmpty
      let simple_mode :=
        if has_blocking_config then false
        else simple_mode || config.simple_mode.getD true
      Except.ok
        { gitlab_url := trim_end_slashes gitlab_url
          token := token
          blocking_stage := blocking_stage
          blocking_jobs := blocking_jobs_vec
          pre_block_duration := pre_block_duration
          post_block_duration := post_block_duration
          check_interval := check_interval
          simple_mode := simple_mode }

/-- Elapsed active seconds of a job (seconds_since_start): the parsed start
time if it parses, else the parsed creation time, else none; the difference
now minus start is cast i64 → u64. -/
def seconds_since_start (parse : String → Option Int) (now : Int)
    (started_at : Option String) (created_at : String) : Option Nat :=
  match started_at.bind parse with
  | some start_time => some (u64_of_int (now - start_time))
  | none =>
    match parse created_at with
    | some created_time => some (u64_of_int (now - created_time))
    | none => none

/-- Stage Order Deriver loop (get_stage_order): the accumulator plays the
role of both the seen-set and the output vector, which the source keeps in
lockstep. -/
def get_stage_order_loop : List Job → List String → List String
  | [], acc => acc
  | job :: rest, acc =>
    if job.stage ∈ acc then get_stage_order_loop rest acc
    else get_stage_order_loop rest (acc ++ [job.stage])

/-- Stage Order Deriver (get_stage_order). -/
def get_stage_order (jobs : List Job) : List String :=
  get_stage_order_loop jobs []

/-- Position of a stage in the stage order (find_stage_index). -/
def find_stage_index (stages : List String) (target_stage : String) : Option Nat :=
  stages.findIdx? (fun s => s == target_stage)

/-- Active job statuses, the two status strings matched by the evaluator. -/
def is_active_status (s : String) : Bool :=
  s == "running" || s == "pending"

/-- Named-job check of check_pipeline_blocking: first job in list order
whose name is in blocking_jobs and whose status is active. -/
def check_blocking_jobs (cfg : GitLabSafePush) (jobs : List Job) : Option BlockingReason :=
  if cfg.blocking_jobs.isEmpty then none
  else
    jobs.findSome? fun job =>
      if cfg.blocking_jobs.contains job.name && is_active_status job.status then
        some (BlockingReason.BlockingJobRunning job.name)
      else none

/-- Body of the stage-based loop of check_pipeline_blocking for one job:
the blocking-stage membership test, then the pre-block rule at index
blocking_idx - 1 (saturating), then the post-block rule at blocking_idx + 1. -/
def stage_check_job (cfg : GitLabSafePush) (parse : String → Option Int) (now : Int)
    (stages : List String) (blocking_stage : String) (blocking_stage_idx : Option Nat)
    (job : Job) : Option BlockingReason :=
  if is_active_status job.status then
    if job.stage == blocking_stage then
      some (BlockingReason.BlockingStageRunning job.stage)
    else
      match blocking_stage_idx with
      | none => none
      | some blocking_idx =>
        match find_stage_index stages job.stage with
        | none => none
        | some current_idx =>
          let pre_result :=
            if current_idx == blocking_idx - 1 then
              match seconds_since_start parse now job.started_at job.created_at with
              | some seconds_running =>
                if seconds_running ≥ cfg.pre_block_duration then
                  some (BlockingReason.PreBlockingStage job.stage seconds_running)
                else none
              | none => none
            else none
          match pre_result with
          | some r => some r
          | none =>
            if current_idx == blocking_idx + 1 then
              match seconds_since_start parse now job.started_at job.created_at with
              | some seconds_running =>
                if seconds_running < cfg.post_block_duration then
                  some (BlockingReason.BlockingStageRunning (job.stage ++ " (post-block)"))
                else none
              | none => none
            else none
  else none

/-- Blocking Evaluator (check_pipeline_blocking) for one pipeline, given
its fetched job list: simple mode short-circuit, then the named-job check,
then the stage-based check. -/
def check_pipeline_blocking (cfg : GitLabSafePush) (parse : String → Option Int)
    (now : Int) (jobs : List Job) : Option BlockingReason :=
  if cfg.simple_mode then some BlockingReason.SimpleMode
  else
    let stages := get_stage_order jobs
    match check_blocking_jobs cfg jobs with
    | some r => some r
    | none =>
      match cfg.blocking_stage with
      | none => none
      | some blocking_stage =>
        jobs.findSome?
          (stage_check_job cfg parse now stages blocking_stage
            (find_stage_index stages blocking_stage))

/-- Fetch errors surfaced by the API wrappers (the boxed error strings of
get_project_pipelines and get_pipeline_jobs). -/
structure FetchError where
  msg : String
deriving Repr, DecidableEq

/-- Pipeline statuses the scanner treats as active (running_statuses). -/
def active_pipeline_status (s : String) : Bool :=
  s == "running" || s == "pending" || s == "created"

/-- Active Pipeline Scanner (check_blocking_pipelines) on an already
fetched pipeline list, with jobsOf giving each pipeline its fetched jobs. -/
def check_blocking_pipelines (cfg : GitLabSafePush) (parse : String → Option Int)
    (now : Int) (jobsOf : Nat → List Job) : List Pipeline → List (Pipeline × BlockingReason)
  | [] => []
  | p :: rest =>
    if active_pipeline_status p.status then
      match check_pipeline_blocking cfg parse now (jobsOf p.id) with
      | some reason => (p, reason) :: check_blocking_pipelines cfg parse now jobsOf rest
      | none => check_blocking_pipelines cfg parse now jobsOf rest
    else check_blocking_pipelines cfg parse now jobsOf rest

/-- Poll Loop (wait_for_pipeline): the input list holds the scanner result
of each successive iteration. A fetch error terminates the loop with that
error; an empty blocking list terminates it cleared; a non-empty blocking
list reports and re-iterates. The value none models the loop still waiting
beyond the modelled horizon of iterations. -/
def wait_for_pipeline :
    List (Except FetchError (List (Pipeline × BlockingReason))) →
    Option (Except FetchError Unit)
  | [] => none
  | r :: rest =>
    match r with
    | Except.error e => some (Except.error e)
    | Except.ok [] => some (Except.ok ())
    | Except.ok (_ :: _) => wait_for_pipeline rest

/-- Orchestrator skeleton of safe_push, abstracted over the outcome of the
initial blocking check, the terminated outcome of the wait loop (none when
the loop never terminates), and the outcome of the git push itself. A
fetch error on the initial check falls open to the push; in the wait
branch an error from the loop is propagated by the question-mark operator. -/
def safe_push (check_one : Except FetchError (List (Pipeline × BlockingReason)))
    (wait_result : Option (Except FetchError Unit)) (wait : Bool)
    (push_result : Bool) : Option (Except FetchError Bool) :=
  match check_one with
  | Except.error _ => some (Except.ok push_result)
  | Except.ok blocking_pipelines =>
    if blocking_pipelines.isEmpty then some (Except.ok push_result)
    else if !wait then some (Except.ok false)
    else
      match wait_result with
      | none => none
      | some (Except.error e) => some (Except.error e)
      | some (Except.ok _) => some (Except.ok push_result)

/-- Reference function for the first-occurrence ordering of the Stage
Order Deriver, written from the words of the specification: keep each name
at its first appearance and erase its later duplicates. -/
def spec_first_occurrences : List String → List String
  | [] => []
  | s :: rest => s :: spec_first_occurrences (rest.filter (fun x => x != s))
termination_by l => l.length
decreasing_by
  simp only [List.length_cons]
  exact Nat.lt_succ_of_le (List.length_filter_le _ _)

/-! ## Concrete fixtures used to exercise the theorems -/

/-- Concrete parse function: only the string t100 parses, to instant 100. -/
def tparse : String → Option Int :=
  fun s => if s == "t100" then some 100 else none

/-- Concrete parse function: only the string f5 parses, to instant 5. -/
def tparse_future : String → Option Int :=
  fun s => if s == "f5" then some 5 else none

/-- Advanced-mode configuration with blocking stage deploy. -/
def cfg_pre : GitLabSafePush :=
  { gitlab_url := "https://gitlab.example.com", token := "tok"
    blocking_stage := some "deploy", blocking_jobs := []
    pre_block_duration := 15, post_block_duration := 5
    check_interval := 30, simple_mode := false }

/-- Advanced-mode configuration with a named blocking job. -/
def cfg_jobs : GitLabSafePush :=
  { gitlab_url := "https://gitlab.example.com", token := "tok"
    blocking_stage := none, blocking_jobs := ["deploy-prod"]
    pre_block_duration := 15, post_block_duration := 5
    check_interval := 30, simple_mode := false }

/-- Advanced-mode configuration with a pre-block duration of 2 to the 64
minus 1 seconds, the largest u64 value, legal on the command line. -/
def cfg_big : GitLabSafePush :=
  { gitlab_url := "https://gitlab.example.com", token := "tok"
    blocking_stage := some "deploy", blocking_jobs := []
    pre_block_duration := 2 ^ 64 - 1, post_block_duration := 5
    check_interval := 30, simple_mode := false }

/-- Simple-mode configuration. -/
def gsp_simple : GitLabSafePush :=
  { gitlab_url := "https://gitlab.example.com", token := "tok"
    blocking_stage := none, blocking_jobs := []
    pre_block_duration := 15, post_block_duration := 5
    check_interval := 30, simple_mode := true }

/-- Resolution result of GitLabSafePush.new with a blocking stage flag and
an explicit simple-mode request. -/
def gsp_resolved : GitLabSafePush :=
  { gitlab_url := "https://gl", token := "tok"
    blocking_stage := some "deploy", blocking_jobs := []
    pre_block_duration := 15, post_block_duration := 5
    check_interval := 30, simple_mode := false }

/-- Config file setting check_interval to 60. -/
def cfg_file60 : Config :=
  { check_interval := some 60 }

/-- Resolution result with CLI interval 30 against cfg_file60. -/
def gsp60 : GitLabSafePush :=
  { gitlab_url := "https://gl", token := "tok"
    blocking_stage := none, blocking_jobs := []
    pre_block_duration := 15, post_block_duration := 5
    check_interval := 60, simple_mode := true }

/-- Resolution result with CLI interval 45 against cfg_file60. -/
def gsp45 : GitLabSafePush :=
  { gitlab_url := "https://gl", token := "tok"
    blocking_stage := none, blocking_jobs := []
    pre_block_duration := 15, post_block_duration := 5
    check_interval := 45, simple_mode := true }

/-- A running job in stage build, started at instant 100. -/
def job_build : Job :=
  { id := 1, name := "build-job", stage := "build", status := "running"
    started_at := some "t100", created_at := "t100" }

/-- A not-yet-active job in stage deploy. -/
def job_deploy_idle : Job :=
  { id := 2, name := "deploy-job", stage := "deploy", status := "created"
    started_at := none, created_at := "t100" }

/-- A running job in stage verify, started at instant 100. -/
def job_verify : Job :=
  { id := 4, name := "verify-job", stage := "verify", status := "running"
    started_at := some "t100", created_at := "t100" }

/-- A pending job whose name is in the blocking_jobs of cfg_jobs. -/
def job_named : Job :=
  { id := 5, name := "deploy-prod", stage := "deploy", status := "pending"
    started_at := none, created_at := "t100" }

/-- A finished job whose name is in the blocking_jobs of cfg_jobs. -/
def job_success : Job :=
  { id := 6, name := "deploy-prod", stage := "deploy", status := "success"
    started_at := none, created_at := "t100" }

/-- A running job whose timestamps do not parse. -/
def job_noparse : Job :=
  { id := 7, name := "build-job", stage := "build", status := "running"
    started_at := some "bad", created_at := "bad" }

/-- A running job whose start timestamp parses to instant 5, in the future
of the now value 0 used with it. -/
def job_future : Job :=
  { id := 3, name := "build-job", stage := "build", status := "running"
    started_at := some "f5", created_at := "f5" }

/-- A running pipeline fixture. -/
def pipe1 : Pipeline :=
  { id := 1, status := "running", ref := "main", created_at := "t100" }

/-! ## General lemmas about the Stage Order Deriver -/

theorem spec_first_occurrences_nil : spec_first_occurrences [] = [] := by
  rw [spec_first_occurrences]

theorem spec_first_occurrences_cons (s : String) (rest : List String) :
    spec_first_occurrences (s :: rest) =
      s :: spec_first_occurrences (rest.filter (fun x => x != s)) := by
  rw [spec_first_occurrences]

theorem mem_spec_first_occurrences (x : String) (l : List String) :
    x ∈ spec_first_occurrences l ↔ x ∈ l := by
  induction l using spec_first_occurrences.induct with
  | case1 => simp [spec_first_occurrences_nil]
  | case2 s rest ih =>
    rw [spec_first_occurrences_cons]
    simp only [List.mem_cons, ih, List.mem_filter, bne_iff_ne, ne_eq]
    constructor
    · rintro (rfl | ⟨h, _⟩)
      · exact Or.inl rfl
      · exact Or.inr h
    · rintro (rfl | h)
      · exact Or.inl rfl
      · by_cases hx : x = s
        · exact Or.inl hx
        · exact Or.inr ⟨h, hx⟩

theorem spec_first_occurrences_nodup (l : List String) :
    (spec_first_occurrences l).Nodup := by
  induction l using spec_first_occurrences.induct with
  | case1 => rw [spec_first_occurrences_nil]; exact List.nodup_nil
  | case2 s rest ih =>
    rw [spec_first_occurrences_cons]
    refine List.nodup_cons.mpr ⟨?_, ih⟩
    intro hmem
    rw [mem_spec_first_occurrences] at hmem
    simp at hmem

theorem spec_first_occurrences_length (l : List String) :
    (spec_first_occurrences l).length ≤ l.length := by
  induction l using spec_first_occurrences.induct with
  | case1 => rw [spec_first_occurrences_nil]
  | case2 s rest ih =>
    rw [spec_first_occurrences_cons]
    simp only [List.length_cons, Nat.succ_le_succ_iff]
    exact le_trans ih (List.length_filter_le _ _)

theorem spec_first_occurrences_eq_nil (l : List String) :
    spec_first_occurrences l = [] ↔ l = [] := by
  cases l with
  | nil => simp [spec_first_occurrences_nil]
  | cons s rest => simp [spec_first_occurrences_cons]

theorem get_stage_order_loop_eq (jobs : List Job) (acc : List String) :
    get_stage_order_loop jobs acc =
      acc ++ spec_first_occurrences
        ((jobs.map Job.stage).filter (fun x => decide (x ∉ acc))) := by
  induction jobs generalizing acc with
  | nil => simp [get_stage_order_loop, spec_first_occurrences_nil]
  | cons job rest ih =>
    by_cases hmem : job.stage ∈ acc
    · rw [get_stage_order_loop, if_pos hmem, ih]
      simp [hmem]
    · rw [get_stage_order_loop, if_neg hmem, ih]
      have hfe : ((rest.map Job.stage).filter (fun x => decide (x ∉ acc ++ [job.stage]))) =
          ((rest.map Job.stage).filter (fun x => decide (x ∉ acc))).filter
            (fun x => x != job.stage) := by
        rw [List.filter_filter]
        apply List.filter_congr
        intro x _
        by_cases hx : x = job.stage <;> by_cases ha : x ∈ acc <;>
          simp [hx, ha]
      rw [hfe]
      simp only [List.map_cons, List.filter_cons]
      rw [if_pos (by exact decide_eq_true hmem)]
      rw [spec_first_occurrences_cons]
      simp

theorem get_stage_order_eq (jobs : List Job) :
    get_stage_order jobs = spec_first_occurrences (jobs.map Job.stage) := by
  rw [get_stage_order, get_stage_order_loop_eq]
  simp

/-- C6: for every job list, the Stage Order Deriver output equals the
first-occurrence deduplication of the stage names (so it has no duplicates
and lists stage names in first-appearance order), its length is at most
the number of jobs, and it is empty exactly when the job list is empty. -/
theorem c6_stage_order_deriver (jobs : List Job) :
    get_stage_order jobs = spec_first_occurrences (jobs.map Job.stage) ∧
    (get_stage_order jobs).Nodup ∧
    (get_stage_order jobs).length ≤ jobs.length ∧
    (get_stage_order jobs = [] ↔ jobs = []) := by
  refine ⟨get_stage_order_eq jobs, ?_, ?_, ?_⟩
  · rw [get_stage_order_eq]
    exact spec_first_occurrences_nodup _
  · rw [get_stage_order_eq]
    exact le_trans (spec_first_occurrences_length _) (by simp)
  · rw [get_stage_order_eq, spec_first_occurrences_eq_nil]
    simp

/-! ## Lemmas for the first-match scanning of the evaluator loops -/

theorem findSome?_append_of_none {α β : Type _} (f : α → Option β) (l1 l2 : List α)
    (h : ∀ a ∈ l1, f a = none) : (l1 ++ l2).findSome? f = l2.findSome? f := by
  induction l1 with
  | nil => rfl
  | cons a restl ih =>
    have ha := h a (by simp)
    rw [List.cons_append, List.findSome?_cons, ha]
    exact ih (fun x hx => h x (by simp [hx]))

theorem find_stage_index_injective_ne (stages : List String) (a b : String) (i k : Nat)
    (hi : find_stage_index stages a = some i) (hk : find_stage_index stages b = some k)
    (hik : i ≠ k) : a ≠ b := by
  intro heq
  rw [heq, hk] at hi
  exact hik (Option.some.inj hi).symm

/-- C1: a job active in the stage immediately preceding the blocking stage
triggers PreBlockingStage exactly when its elapsed seconds reach
pre_block_duration; below the threshold the pre-block rule yields nothing,
and at or above it the whole Evaluator returns PreBlockingStage. -/
theorem c1_pre_block_boundary
    (cfg : GitLabSafePush) (parse : String → Option Int) (now : Int)
    (bs : String) (bidx : Nat) (j : Job) (pjs restj : List Job) (secs : Nat)
    (stages : List String)
    (hstages : stages = get_stage_order (pjs ++ j :: restj))
    (hsimple : cfg.simple_mode = false)
    (hbs : cfg.blocking_stage = some bs)
    (hbidx : find_stage_index stages bs = some bidx)
    (hb1 : 1 ≤ bidx)
    (hactive : is_active_status j.status = true)
    (hcidx : find_stage_index stages j.stage = some (bidx - 1))
    (hsecs : seconds_since_start parse now j.started_at j.created_at = some secs)
    (hnamed : check_blocking_jobs cfg (pjs ++ j :: restj) = none)
    (hpjs : ∀ j' ∈ pjs, stage_check_job cfg parse now stages bs (some bidx) j' = none) :
    stage_check_job cfg parse now stages bs (some bidx) j =
      (if cfg.pre_block_duration ≤ secs
        then some (BlockingReason.PreBlockingStage j.stage secs) else none) ∧
    (cfg.pre_block_duration ≤ secs →
      check_pipeline_blocking cfg parse now (pjs ++ j :: restj) =
        some (BlockingReason.PreBlockingStage j.stage secs)) := by
  have hne : j.stage ≠ bs :=
    find_stage_index_injective_ne stages j.stage bs (bidx - 1) bidx hcidx hbidx (by omega)
  have hbeq : (j.stage == bs) = false := by
    simp [hne]
  have hself : ((bidx - 1) == (bidx - 1)) = true := by simp
  have hnotpost : ((bidx - 1) == (bidx + 1)) = false := by
    simp only [beq_eq_false_iff_ne, ne_eq]
    omega
  have hfirst : stage_check_job cfg parse now stages bs (some bidx) j =
      (if cfg.pre_block_duration ≤ secs
        then some (BlockingReason.PreBlockingStage j.stage secs) else none) := by
    unfold stage_check_job
    rw [hactive, hbeq, hcidx, hsecs]
    by_cases hge : cfg.pre_block_duration ≤ secs
    · simp [hself, hnotpost, hge, ge_iff_le]
    · simp [hself, hnotpost, hge, ge_iff_le]
  refine ⟨hfirst, fun hle => ?_⟩
  unfold check_pipeline_blocking
  rw [hsimple]
  simp only [Bool.false_eq_true, if_false, hnamed, hbs, ← hstages, hbidx]
  rw [findSome?_append_of_none _ _ _ hpjs, List.findSome?_cons, hfirst, if_pos hle]

/-- C2: a job active in the stage immediately following the blocking stage
triggers BlockingStageRunning with the stage name suffixed by
" (post-block)" exactly when its elapsed seconds are strictly below
post_block_duration; at or above the threshold the post-block rule yields
nothing, and below it the whole Evaluator returns the post-block reason. -/
theorem c2_post_block_boundary
    (cfg : GitLabSafePush) (parse : String → Option Int) (now : Int)
    (bs : String) (bidx : Nat) (j : Job) (pjs restj : List Job) (secs : Nat)
    (stages : List String)
    (hstages : stages = get_stage_order (pjs ++ j :: restj))
    (hsimple : cfg.simple_mode = false)
    (hbs : cfg.blocking_stage = some bs)
    (hbidx : find_stage_index stages bs = some bidx)
    (hactive : is_active_status j.status = true)
    (hcidx : find_stage_index stages j.stage = some (bidx + 1))
    (hsecs : seconds_since_start parse now j.started_at j.created_at = some secs)
    (hnamed : check_blocking_jobs cfg (pjs ++ j :: restj) = none)
    (hpjs : ∀ j' ∈ pjs, stage_check_job cfg parse now stages bs (some bidx) j' = none) :
    stage_check_job cfg parse now stages bs (some bidx) j =
      (if secs < cfg.post_block_duration
        then some (BlockingReason.BlockingStageRunning (j.stage ++ " (post-block)"))
        else none) ∧
    (secs < cfg.post_block_duration →
      check_pipeline_blocking cfg parse now (pjs ++ j :: restj) =
        some (BlockingReason.BlockingStageRunning (j.stage ++ " (post-block)"))) := by
  have hne : j.stage ≠ bs :=
    find_stage_index_injective_ne stages j.stage bs (bidx + 1) bidx hcidx hbidx (by omega)
  have hbeq : (j.stage == bs) = false := by
    simp [hne]
  have hnotpre : ((bidx + 1) == (bidx - 1)) = false := by
    simp only [beq_eq_false_iff_ne, ne_eq]
    omega
  have hself : ((bidx + 1) == (bidx + 1)) = true := by simp
  have hfirst : stage_check_job cfg parse now stages bs (some bidx) j =
      (if secs < cfg.post_block_duration
        then some (BlockingReason.BlockingStageRunning (j.stage ++ " (post-block)"))
        else none) := by
    unfold stage_check_job
    rw [hactive, hbeq, hcidx, hsecs]
    by_cases hlt : secs < cfg.post_block_duration
    · simp [hself, hnotpre, hlt]
    · simp [hself, hnotpre, hlt]
  refine ⟨hfirst, fun hlt => ?_⟩
  unfold check_pipeline_blocking
  rw [hsimple]
  simp only [Bool.false_eq_true, if_false, hnamed, hbs, ← hstages, hbidx]
  rw [findSome?_append_of_none _ _ _ hpjs, List.findSome?_cons, hfirst, if_pos hlt]

theorem findSome?_guard_eq_find?_map {α β : Type _} (p : α → Bool) (g : α → β)
    (l : List α) :
    l.findSome? (fun a => if p a then some (g a) else none) = (l.find? p).map g := by
  induction l with
  | nil => rfl
  | cons a restl ih =>
    rw [List.findSome?_cons, List.find?_cons]
    cases hp : p a <;> simp [hp, ih]

/-- C4: in advanced mode, when some job in the list has its name in
blocking_jobs and an active status, the Evaluator returns
BlockingJobRunning for the first such job in list order, regardless of any
stage-based configuration; a status of success is not active, so a named
job with status success never matches this check. -/
theorem c4_named_job_check
    (cfg : GitLabSafePush) (parse : String → Option Int) (now : Int)
    (jobs : List Job) (j : Job)
    (hsimple : cfg.simple_mode = false)
    (hfind : jobs.find?
        (fun job => cfg.blocking_jobs.contains job.name && is_active_status job.status)
      = some j) :
    check_pipeline_blocking cfg parse now jobs =
      some (BlockingReason.BlockingJobRunning j.name) ∧
    is_active_status "success" = false ∧
    (∀ job : Job, job.status = "success" →
      (cfg.blocking_jobs.contains job.name && is_active_status job.status) = false) := by
  have hp := List.find?_some hfind
  simp only [Bool.and_eq_true] at hp
  have hcontains : cfg.blocking_jobs.contains j.name = true := hp.1
  have hnonempty : cfg.blocking_jobs.isEmpty = false := by
    cases hbj : cfg.blocking_jobs with
    | nil => rw [hbj] at hcontains; simp [List.contains] at hcontains
    | cons a restl => simp
  have hnamed : check_blocking_jobs cfg jobs =
      some (BlockingReason.BlockingJobRunning j.name) := by
    unfold check_blocking_jobs
    rw [hnonempty]
    simp only [Bool.false_eq_true, if_false]
    rw [findSome?_guard_eq_find?_map
      (fun job => cfg.blocking_jobs.contains job.name && is_active_status job.status)
      (fun job => BlockingReason.BlockingJobRunning job.name) jobs]
    rw [hfind]
    rfl
  refine ⟨?_, by decide, ?_⟩
  · unfold check_pipeline_blocking
    rw [hsimple]
    simp only [Bool.false_eq_true, if_false, hnamed]
  · intro job hstat
    rw [hstat]
    have : is_active_status "success" = false := by decide
    rw [this, Bool.and_false]

/-- C5: the elapsed-time computation yields none when the start timestamp
is absent or unparseable and the creation timestamp is unparseable; a
missing elapsed value makes the pre-block and post-block threshold rules
yield nothing for that job (never a crash, never elapsed zero); when the
start timestamp parses the elapsed value is now minus start (cast to u64,
the identity on in-range nonnegative differences), and otherwise a
parseable creation timestamp is used as the fallback. -/
theorem c5_timestamp_degradation (parse : String → Option Int) (now : Int) :
    (∀ (started_at : Option String) (created_at : String),
      started_at.bind parse = none → parse created_at = none →
      seconds_since_start parse now started_at created_at = none) ∧
    (∀ (cfg : GitLabSafePush) (stages : List String) (bs : String)
        (bidxOpt : Option Nat) (j : Job),
      j.stage ≠ bs →
      seconds_since_start parse now j.started_at j.created_at = none →
      stage_check_job cfg parse now stages bs bidxOpt j = none) ∧
    (∀ (started : String) (created_at : String) (t : Int),
      parse started = some t →
      seconds_since_start parse now (some started) created_at =
        some (u64_of_int (now - t))) ∧
    (∀ (started_at : Option String) (created_at : String) (t : Int),
      started_at.bind parse = none → parse created_at = some t →
      seconds_since_start parse now started_at created_at =
        some (u64_of_int (now - t))) ∧
    (∀ t : Int, 0 ≤ now - t → now - t < 2 ^ 64 →
      (u64_of_int (now - t) : Int) = now - t) := by
  refine ⟨?_, ?_, ?_, ?_, ?_⟩
  · intro started_at created_at hstart hcreated
    unfold seconds_since_start
    rw [hstart, hcreated]
  · intro cfg stages bs bidxOpt j hne hsecs
    have hbeq : (j.stage == bs) = false := by simp [hne]
    unfold stage_check_job
    rw [hsecs, hbeq]
    cases hact : is_active_status j.status
    · simp
    · cases bidxOpt with
      | none => simp
      | some bidx =>
        cases hf : find_stage_index stages j.stage with
        | none => simp
        | some cidx =>
          simp only [if_true, Bool.false_eq_true, if_false]
          cases hpre : (cidx == bidx - 1) <;> cases hpost : (cidx == bidx + 1) <;>
            simp [hpre, hpost]
  · intro started created_at t hp
    unfold seconds_since_start
    rw [show (some started).bind parse = parse started from rfl, hp]
  · intro started_at created_at t hstart hcreated
    unfold seconds_since_start
    rw [hstart, hcreated]
  · intro t h0 hlt
    unfold u64_of_int
    omega

/-- C7: the Scanner evaluates exactly the pipelines whose status is one of
running, pending, created, in the order received, and returns, in that
order, the (Pipeline, BlockingReason) pairs of exactly the evaluated
pipelines for which the Evaluator produced a reason; with no fetched
pipelines the result is the empty list. -/
theorem c7_scanner_filter_order (cfg : GitLabSafePush) (parse : String → Option Int)
    (now : Int) (jobsOf : Nat → List Job) (pipelines : List Pipeline) :
    check_blocking_pipelines cfg parse now jobsOf pipelines =
      (pipelines.filter (fun p => active_pipeline_status p.status)).filterMap
        (fun p => (check_pipeline_blocking cfg parse now (jobsOf p.id)).map
          (fun reason => (p, reason))) ∧
    check_blocking_pipelines cfg parse now jobsOf [] = [] := by
  refine ⟨?_, rfl⟩
  induction pipelines with
  | nil => rfl
  | cons p restp ih =>
    cases hact : active_pipeline_status p.status with
    | false =>
      rw [check_blocking_pipelines, hact]
      simp only [Bool.false_eq_true, if_false, List.filter_cons, hact, ih]
    | true =>
      rw [check_blocking_pipelines, hact]
      simp only [if_true, List.filter_cons, hact, List.filterMap_cons]
      cases hr : check_pipeline_blocking cfg parse now (jobsOf p.id) with
      | none => simp [hr, ih]
      | some reason => simp [hr, ih]

/-- C3: a fetch error on the initial blocking check falls open and the
orchestrator returns the outcome of the push itself, while a fetch error
reached inside the Poll Loop terminates the loop immediately with that
error (no retry), and the orchestrator propagates it without pushing. -/
theorem c3_fetch_error_asymmetry (e : FetchError)
    (wait_result : Option (Except FetchError Unit)) (wait : Bool) (push_result : Bool)
    (pres later : List (Except FetchError (List (Pipeline × BlockingReason))))
    (b : Pipeline × BlockingReason) (bl : List (Pipeline × BlockingReason))
    (hpres : ∀ r ∈ pres, ∃ hd tl, r = Except.ok (hd :: tl)) :
    safe_push (Except.error e) wait_result wait push_result =
      some (Except.ok push_result) ∧
    wait_for_pipeline (pres ++ Except.error e :: later) = some (Except.error e) ∧
    safe_push (Except.ok (b :: bl))
        (wait_for_pipeline (pres ++ Except.error e :: later)) true push_result =
      some (Except.error e) := by
  have hloop : wait_for_pipeline (pres ++ Except.error e :: later) =
      some (Except.error e) := by
    induction pres with
    | nil => rfl
    | cons r restr ih =>
      obtain ⟨hd, tl, rfl⟩ := hpres r (by simp)
      rw [List.cons_append, wait_for_pipeline]
      exact ih (fun x hx => hpres x (by simp [hx]))
  refine ⟨rfl, hloop, ?_⟩
  rw [hloop]
  rfl

/-- C8: whenever a blocking stage is resolved (from flag or config file)
or the parsed blocking-jobs list is non-empty, configuration resolution
forces advanced mode (simple_mode = false) even if simple mode was
explicitly requested; and in simple mode the Evaluator returns SimpleMode
immediately for every job list, without inspecting the jobs. -/
theorem c8_forced_advanced_mode
    (gitlab_url token blocking_stage blocking_jobs : Option String)
    (pre_block_duration post_block_duration check_interval : Nat)
    (simple_mode : Bool) (config : Config) (env_token env_url : Option String)
    (r : GitLabSafePush)
    (hok : GitLabSafePush.new gitlab_url token blocking_stage blocking_jobs
      pre_block_duration post_block_duration check_interval simple_mode config
      env_token env_url = Except.ok r)
    (hblk : (blocking_stage <|> config.blocking_stage).isSome = true ∨
      parse_blocking_jobs (blocking_jobs <|> config.blocking_jobs) ≠ []) :
    r.simple_mode = false ∧
    (∀ (cfg : GitLabSafePush) (parse : String → Option Int) (now : Int)
        (jobs : List Job),
      cfg.simple_mode = true →
      check_pipeline_blocking cfg parse now jobs = some BlockingReason.SimpleMode) := by
  constructor
  · unfold GitLabSafePush.new at hok
    cases htok : token <|> config.token <|> env_token with
    | none => rw [htok] at hok; exact absurd hok (by simp)
    | some tokv =>
      cases hurl : gitlab_url <|> config.gitlab_url <|> env_url with
      | none => rw [htok, hurl] at hok; exact absurd hok (by simp)
      | some urlv =>
        rw [htok, hurl] at hok
        simp only [Except.ok.injEq] at hok
        have hsm := congrArg GitLabSafePush.simple_mode hok
        simp only at hsm
        rw [← hsm]
        have hcond : ((blocking_stage <|> config.blocking_stage).isSome ||
            !(parse_blocking_jobs (blocking_jobs <|> config.blocking_jobs)).isEmpty)
              = true := by
          rcases hblk with h | h
          · rw [h, Bool.true_or]
          · rw [Bool.or_eq_true]
            right
            simp [List.isEmpty_iff, h]
        rw [hcond, if_pos rfl]
  · intro cfg parse now jobs hsimple
    unfold check_pipeline_blocking
    rw [hsimple, if_pos rfl]

/-- C9: in check_interval resolution a command-line value of 30 (the
default) is indistinguishable from an unset flag: with CLI value 30 the
resolved interval is the config-file value when present, 30 otherwise, so
an explicit 30 cannot override the config file; any CLI value other than
30 is used unconditionally. -/
theorem c9_check_interval_conflation
    (gitlab_url token blocking_stage blocking_jobs : Option String)
    (pre_block_duration post_block_duration check_interval : Nat)
    (simple_mode : Bool) (config : Config) (env_token env_url : Option String)
    (r : GitLabSafePush)
    (hok : GitLabSafePush.new gitlab_url token blocking_stage blocking_jobs
      pre_block_duration post_block_duration check_interval simple_mode config
      env_token env_url = Except.ok r) :
    (check_interval = 30 → r.check_interval = config.check_interval.getD 30) ∧
    (check_interval ≠ 30 → r.check_interval = check_interval) := by
  unfold GitLabSafePush.new at hok
  cases htok : token <|> config.token <|> env_token with
  | none => rw [htok] at hok; exact absurd hok (by simp)
  | some tokv =>
    cases hurl : gitlab_url <|> config.gitlab_url <|> env_url with
    | none => rw [htok, hurl] at hok; exact absurd hok (by simp)
    | some urlv =>
      rw [htok, hurl] at hok
      simp only [Except.ok.injEq] at hok
      have hci := congrArg GitLabSafePush.check_interval hok
      simp only at hci
      constructor
      · intro h30
        rw [← hci, h30]
        simp
      · intro hne
        rw [← hci]
        have : (check_interval != 30) = true := by
          simp [hne]
        rw [this, if_pos rfl]

/-- C10 counterexample: a running job whose start timestamp parses to a
future instant (5 seconds after now = 0) yields elapsed 2 to the 64 minus
5, at least 2 to the 63 as claimed, yet with the legal configured
pre_block_duration of 2 to the 64 minus 1 the pre-block threshold is not
satisfied and the pre-block rule fires nothing, refuting that such a job
satisfies the threshold for every configured nonnegative duration. -/
theorem c10_counterexample :
    is_active_status job_future.status = true ∧
    find_stage_index ["build", "deploy"] "deploy" = some 1 ∧
    find_stage_index ["build", "deploy"] job_future.stage = some 0 ∧
    seconds_since_start tparse_future 0 job_future.started_at job_future.created_at =
      some (2 ^ 64 - 5) ∧
    2 ^ 63 ≤ 2 ^ 64 - 5 ∧
    ¬ (2 ^ 64 - 5 ≥ cfg_big.pre_block_duration) ∧
    stage_check_job cfg_big tparse_future 0 ["build", "deploy"] "deploy" (some 1)
      job_future = none := by
  have hval : u64_of_int (0 - 5) = 2 ^ 64 - 5 := by
    unfold u64_of_int
    omega
  have hsecs : seconds_since_start tparse_future 0 job_future.started_at
      job_future.created_at = some (2 ^ 64 - 5) := by
    show some (u64_of_int (0 - 5)) = some (2 ^ 64 - 5)
    rw [hval]
  refine ⟨rfl, rfl, rfl, hsecs, by norm_num, by norm_num [cfg_big], ?_⟩
  unfold stage_check_job
  rw [hsecs]
  have hne : (job_future.stage == "deploy") = false := by decide
  have hcidx : find_stage_index ["build", "deploy"] job_future.stage = some 0 := rfl
  have hact : is_active_status job_future.status = true := rfl
  rw [hact, hne, hcidx]
  have hpost : ((0 : Nat) == 1 + 1) = false := by decide
  have hc : ¬ (cfg_big.pre_block_duration ≤ 18446744073709551611) := by
    norm_num [cfg_big]
  simp [hpost, hc]

/-- C10 amended: a job whose effective start timestamp parses to a time
strictly later than now (by at most 2 to the 63 seconds, the i64 range)
gets an elapsed value of at least 2 to the 63 through the signed-to-
unsigned cast, hence satisfies the pre-block threshold for any configured
duration of at most 2 to the 63 and never satisfies the post-block
condition for any duration below 2 to the 63. -/
theorem c10_amended (parse : String → Option Int) (now t : Int)
    (started created_at : String)
    (hp : parse started = some t) (hlt : now < t) (hle : t - now ≤ 2 ^ 63) :
    seconds_since_start parse now (some started) created_at =
      some (u64_of_int (now - t)) ∧
    2 ^ 63 ≤ u64_of_int (now - t) ∧
    (∀ pre : Nat, pre ≤ 2 ^ 63 → pre ≤ u64_of_int (now - t)) ∧
    (∀ post : Nat, post < 2 ^ 63 → ¬ (u64_of_int (now - t) < post)) := by
  have hbig : 2 ^ 63 ≤ u64_of_int (now - t) := by
    unfold u64_of_int
    omega
  refine ⟨?_, hbig, fun pre hpre => le_trans hpre hbig, fun post hpost hcon => ?_⟩
  · unfold seconds_since_start
    rw [show (some started).bind parse = parse started from rfl, hp]
  · omega

/-- Witness for C1: at now 120, the build job running since instant 100
(20 elapsed seconds, threshold 15) blocks the pipeline with
PreBlockingStage build 20. -/
theorem c1_pre_block_boundary_witness :
    check_pipeline_blocking cfg_pre tparse 120 ([] ++ job_build :: [job_deploy_idle]) =
      some (BlockingReason.PreBlockingStage job_build.stage 20) :=
  (c1_pre_block_boundary cfg_pre tparse 120 "deploy" 1 job_build [] [job_deploy_idle] 20
    (get_stage_order ([] ++ job_build :: [job_deploy_idle]))
    rfl rfl rfl (by decide) (by decide) (by decide) (by decide) (by decide) (by decide)
    (by intro j' hj'; cases hj')).2 (by decide)

/-- Witness for C2: at now 103, the verify job running since instant 100
(3 elapsed seconds, post-block window 5) blocks the pipeline with the
post-block reason. -/
theorem c2_post_block_boundary_witness :
    check_pipeline_blocking cfg_pre tparse 103 ([job_deploy_idle] ++ job_verify :: []) =
      some (BlockingReason.BlockingStageRunning (job_verify.stage ++ " (post-block)")) :=
  (c2_post_block_boundary cfg_pre tparse 103 "deploy" 0 job_verify [job_deploy_idle] [] 3
    (get_stage_order ([job_deploy_idle] ++ job_verify :: []))
    rfl rfl rfl (by decide) (by decide) (by decide) (by decide) (by decide)
    (by
      intro j' hj'
      have : j' = job_deploy_idle := by
        cases hj' with
        | head => rfl
        | tail _ h => cases h
      rw [this]
      decide)).2 (by decide)

/-- Witness for C3: with one iteration reporting a blocking pipeline and
the next fetch failing with HTTP 500, the initial-check branch pushes
anyway while the wait branch propagates the error. -/
theorem c3_fetch_error_asymmetry_witness :
    safe_push (Except.error (FetchError.mk "HTTP 500")) none false true =
      some (Except.ok true) ∧
    wait_for_pipeline ([Except.ok [(pipe1, BlockingReason.SimpleMode)]] ++
        Except.error (FetchError.mk "HTTP 500") :: []) =
      some (Except.error (FetchError.mk "HTTP 500")) ∧
    safe_push (Except.ok ((pipe1, BlockingReason.SimpleMode) :: []))
        (wait_for_pipeline ([Except.ok [(pipe1, BlockingReason.SimpleMode)]] ++
          Except.error (FetchError.mk "HTTP 500") :: []))
        true true =
      some (Except.error (FetchError.mk "HTTP 500")) :=
  c3_fetch_error_asymmetry (FetchError.mk "HTTP 500") none false true
    [Except.ok [(pipe1, BlockingReason.SimpleMode)]] []
    (pipe1, BlockingReason.SimpleMode) []
    (by
      intro r hr
      have : r = Except.ok [(pipe1, BlockingReason.SimpleMode)] := by
        cases hr with
        | head => rfl
        | tail _ h => cases h
      exact ⟨(pipe1, BlockingReason.SimpleMode), [], this⟩)

/-- Witness for C4: the pending job deploy-prod named in blocking_jobs
blocks the pipeline with BlockingJobRunning, while the same-named job with
status success does not match the named-job predicate. -/
theorem c4_named_job_check_witness :
    check_pipeline_blocking cfg_jobs tparse 120 [job_named] =
      some (BlockingReason.BlockingJobRunning job_named.name) ∧
    is_active_status "success" = false ∧
    (cfg_jobs.blocking_jobs.contains job_success.name &&
      is_active_status job_success.status) = false :=
  have h := c4_named_job_check cfg_jobs tparse 120 [job_named] job_named rfl (by decide)
  ⟨h.1, h.2.1, h.2.2 job_success rfl⟩

/-- Witness for C5: unparseable timestamps give no elapsed value and a
silent non-match of the stage rules; parseable ones give now minus start
with the u64 cast being the identity in range. -/
theorem c5_timestamp_degradation_witness :
    seconds_since_start tparse 120 (some "bad") "alsobad" = none ∧
    stage_check_job cfg_pre tparse 120 ["build", "deploy"] "deploy" (some 1)
      job_noparse = none ∧
    seconds_since_start tparse 120 (some "t100") "bad" =
      some (u64_of_int (120 - 100)) ∧
    seconds_since_start tparse 120 none "t100" = some (u64_of_int (120 - 100)) ∧
    (u64_of_int (120 - 100) : Int) = 120 - 100 :=
  have h := c5_timestamp_degradation tparse 120
  ⟨h.1 (some "bad") "alsobad" (by decide) (by decide),
    h.2.1 cfg_pre ["build", "deploy"] "deploy" (some 1) job_noparse (by decide) (by decide),
    h.2.2.1 "t100" "bad" 100 (by decide),
    h.2.2.2.1 none "t100" 100 rfl (by decide),
    h.2.2.2.2 100 (by decide) (by decide)⟩

/-- Witness for C7 is not needed (no hypotheses); witness for C8: the
blocking-stage flag with an explicit simple-mode request still resolves to
advanced mode, and a simple-mode configuration short-circuits the
evaluator. -/
theorem c8_forced_advanced_mode_witness :
    gsp_resolved.simple_mode = false ∧
    check_pipeline_blocking gsp_simple tparse 120 [job_build] =
      some BlockingReason.SimpleMode :=
  have h := c8_forced_advanced_mode (some "https://gl") (some "tok") (some "deploy") none
    15 5 30 true {} none none gsp_resolved (by rfl) (Or.inl rfl)
  ⟨h.1, h.2 gsp_simple tparse 120 [job_build] rfl⟩

/-- Witness for C9: CLI interval 30 loses to the config-file value 60,
while CLI interval 45 wins over it. -/
theorem c9_check_interval_conflation_witness :
    gsp60.check_interval = 60 ∧ gsp45.check_interval = 45 :=
  have h1 := c9_check_interval_conflation (some "https://gl") (some "tok") none none
    15 5 30 false cfg_file60 none none gsp60 (by rfl)
  have h2 := c9_check_interval_conflation (some "https://gl") (some "tok") none none
    15 5 45 false cfg_file60 none none gsp45 (by rfl)
  ⟨(h1.1 rfl).trans rfl, h2.2 (by decide)⟩

/-- Witness for the amended C10: a start 5 seconds in the future of now 0
yields elapsed 2 to the 64 minus 5, at least 2 to the 63, above the
threshold 100 and not below the post window 5. -/
theorem c10_amended_witness :
    seconds_since_start tparse_future 0 (some "f5") "c" = some (u64_of_int (0 - 5)) ∧
    2 ^ 63 ≤ u64_of_int (0 - 5) ∧
    100 ≤ u64_of_int (0 - 5) ∧
    ¬ (u64_of_int (0 - 5) < 5) :=
  have h := c10_amended tparse_future 0 5 "f5" "c" (by decide) (by decide) (by decide)
  ⟨h.1, h.2.1, h.2.2.1 100 (by norm_num), h.2.2.2 5 (by norm_num)⟩
